import Mathlib

/-!
Verification of the playlist route handler
(`src/apps/web/app/api/playlist/route.ts`, function `GET`).

The handler is embedded as a pure function over an `Env` describing the
external collaborators (recording catalog, session provider, object store)
together with a trace of the collaborator calls it makes.  The per-segment
URL-signing and metadata calls of `Promise.all` are modelled positionally,
and a scheduled variant `promiseAllScheduled` captures that the join is by
original index, not by completion order.
-/

namespace Playlist

/-- The four query parameters of the request; `none` models a parameter that
is absent from the URL (`searchParams.get` returning `null`). -/
structure Request where
  userId : Option String
  videoId : Option String
  videoType : Option String
  thumbnail : Option String
deriving Repr, DecidableEq

/-- A row of the `videos` table as the handler reads it: owner id and the
`public` flag.  The flag is `Option Bool` because the stored column value can
be true, false, or null/undefined; the code tests `video.public === false`. -/
structure Video where
  id : String
  ownerId : String
  publicFlag : Option Bool
deriving Repr, DecidableEq

/-- The identity returned by `getCurrentUser`. -/
structure User where
  userId : String
deriving Repr, DecidableEq

/-- One resolved chunk as produced inside `Promise.all`:
`{ url: url, duration: metadata?.Metadata?.duration ?? "" }`. -/
structure Chunk where
  url : String
  duration : String
deriving Repr, DecidableEq

/-- External collaborators of the handler.  Fallible calls return `Except`
(an `error` is a thrown exception caught by the route's `try/catch`);
`bucketContents pfx` is the store's full ordered key listing under `pfx`,
with `Except.ok none` modelling a ListObjectsV2 response whose `Contents`
field is absent, and `headMetadata` returning the (possibly absent)
`Metadata` map of a HeadObject response. -/
structure Env where
  dbLookup : String → List Video
  currentUser : Option User
  bucketContents : String → Except Unit (Option (List String))
  signUrl : String → Except Unit String
  headMetadata : String → Except Unit (Option (List (String × String)))

/-- The distinct responses the handler can produce. -/
inductive HResponse where
  | missingParams
  | videoNotFound
  | notPublic
  | invalidVideoType
  | upstreamError
  | manifest (text : String)
deriving Repr, DecidableEq

/-- HTTP status attached to each response in the source. -/
def HResponse.status : HResponse → Nat
  | .manifest _ => 200
  | .upstreamError => 500
  | _ => 401

/-- Content type attached to each response in the source. -/
def HResponse.contentType : HResponse → Option String
  | .manifest _ => some "application/x-mpegURL"
  | _ => none

/-- Collaborator calls, recorded in program order. -/
inductive CallEvent where
  | dbSelect (videoId : String)
  | sessionLookup
  | s3List (pfx : String) (maxKeys : Option Nat)
  | s3Sign (key : String)
  | s3Head (key : String)
deriving Repr, DecidableEq

/-- The MaxKeys cap of a listing: at most `n` keys are returned when a cap is
given, the full listing otherwise. -/
def applyCap (maxKeys : Option Nat) (keys : List String) : List String :=
  match maxKeys with
  | some n => keys.take n
  | none => keys

/-- Embeds one ListObjectsV2 call: the store's listing under `pfx`, truncated
to `maxKeys` entries when a cap is given (the documented MaxKeys contract). -/
def listObjectsV2 (env : Env) (pfx : String) (maxKeys : Option Nat) :
    Except Unit (Option (List String)) :=
  (env.bucketContents pfx).map (fun c => c.map (applyCap maxKeys))

/-- The body of the `Promise.all` callback for one key: sign a retrieval URL,
then fetch the object metadata and read its free-form `duration` field,
falling back to the empty string when the metadata map or the field is
absent (`metadata?.Metadata?.duration ?? ""`). -/
def resolveChunk (env : Env) (key : String) : Except Unit Chunk :=
  match env.signUrl key with
  | .error e => .error e
  | .ok url =>
    match env.headMetadata key with
    | .error e => .error e
    | .ok md => .ok ⟨url, ((md.bind (fun m => m.lookup "duration")).getD "")⟩

/-- The collaborator calls issued for one key: the signing call always, the
metadata call only once the signing call has succeeded for that key. -/
def chunkEvents (env : Env) (key : String) : List CallEvent :=
  match env.signUrl key with
  | .error _ => [.s3Sign key]
  | .ok _ => [.s3Sign key, .s3Head key]

/-- Joining the per-key results: the aggregate succeeds only when every
per-key resolution succeeds (the `Promise.all` aggregate value). -/
def collectExcept : List (Except Unit Chunk) → Except Unit (List Chunk)
  | [] => .ok []
  | r :: rest =>
    match r, collectExcept rest with
    | .ok c, .ok cs => .ok (c :: cs)
    | .error e, _ => .error e
    | _, .error e => .error e

/-- `Promise.all` over the listed keys, positional: entry `i` of the result
is the resolution of key `i`. -/
def resolveAll (env : Env) (keys : List String) : Except Unit (List Chunk) :=
  collectExcept (keys.map (resolveChunk env))

/-- Entry of the rendered playlist. -/
structure ManifestEntry where
  url : String
  duration : String
deriving Repr, DecidableEq

/-- Modelled from the spec: the manifest builder `generateM3U8Playlist`
(imported from `@/utils/video/ffmpeg/helpers`, a file not present in this
snapshot) turns each resolved chunk into one playlist entry carrying its
signed URL, with the duration defaulting to 0 when unknown. -/
def manifestEntries (chunks : List Chunk) : List ManifestEntry :=
  chunks.map (fun c => ⟨c.url, if c.duration = "" then "0" else c.duration⟩)

/-- Modelled from the spec: serialization of the sequential-segment playlist;
deterministic in the entry sequence, one playable entry per resolved chunk. -/
def generateM3U8Playlist (chunks : List Chunk) : String :=
  String.join ((manifestEntries chunks).map (fun e =>
    String.append (String.append (String.append "#EXTINF:" e.duration) ",\n")
      (String.append e.url "\n")))

/-- The `switch (videoType)` of the source: the three recognized track
selectors map to their fixed-format storage key prefixes, everything else is
invalid. -/
def resolveSel (userId videoId videoType : String) : Option String :=
  match videoType with
  | "screen" => some (userId ++ "/" ++ videoId ++ "/screen/")
  | "video" => some (userId ++ "/" ++ videoId ++ "/video/")
  | "audio" => some (userId ++ "/" ++ videoId ++ "/audio/")
  | _ => none

/-- The `MaxKeys` argument of the listing call: `thumbnail ? 1 : undefined`,
where `thumbnail` is the query parameter string after `|| ""` — JS truthiness
makes any non-empty string engage the cap. -/
def thumbMax (thumbnail : String) : Option Nat :=
  if thumbnail ≠ "" then some 1 else none

/-- Listing plus `Promise.all` resolution plus manifest build, for a resolved
key prefix: the body of the `try` block after the selector switch.  The keys
iterated are `objects.Contents || []`. -/
def resolutionStage (env : Env) (pfx thumbnail : String)
    (trace : List CallEvent) : HResponse × List CallEvent :=
  match listObjectsV2 env pfx (thumbMax thumbnail) with
  | .error _ => (.upstreamError, trace ++ [.s3List pfx (thumbMax thumbnail)])
  | .ok contents =>
    match resolveAll env (contents.getD []) with
    | .error _ =>
      (.upstreamError, trace ++ [.s3List pfx (thumbMax thumbnail)] ++
        ((contents.getD []).map (chunkEvents env)).flatten)
    | .ok chunks =>
      (.manifest (generateM3U8Playlist chunks),
        trace ++ [.s3List pfx (thumbMax thumbnail)] ++
        ((contents.getD []).map (chunkEvents env)).flatten)

/-- The part of the handler inside the `try` block: track-selector switch
then listing/resolution.  `trace` is the list of collaborator calls already
issued. -/
def getAfterAuth (env : Env) (userId videoId videoType thumbnail : String)
    (trace : List CallEvent) : HResponse × List CallEvent :=
  match resolveSel userId videoId videoType with
  | none => (.invalidVideoType, trace)
  | some pfx => resolutionStage env pfx thumbnail trace

/-- The `GET` handler: parameter extraction (`searchParams.get(..) || ""`
becomes `Option.getD ""`), emptiness check, catalog lookup, the
`video.public === false` visibility check with ownership test, then the `try`
block. -/
def GET (env : Env) (req : Request) : HResponse × List CallEvent :=
  if req.userId.getD "" = "" ∨ req.videoId.getD "" = "" then
    (.missingParams, [])
  else
    match env.dbLookup (req.videoId.getD "") with
    | [] => (.videoNotFound, [.dbSelect (req.videoId.getD "")])
    | video :: _ =>
      if video.publicFlag = some false then
        match env.currentUser with
        | none => (.notPublic, [.dbSelect (req.videoId.getD ""), .sessionLookup])
        | some user =>
          if user.userId ≠ video.ownerId then
            (.notPublic, [.dbSelect (req.videoId.getD ""), .sessionLookup])
          else
            getAfterAuth env (req.userId.getD "") (req.videoId.getD "")
              (req.videoType.getD "") (req.thumbnail.getD "")
              [.dbSelect (req.videoId.getD ""), .sessionLookup]
      else
        getAfterAuth env (req.userId.getD "") (req.videoId.getD "")
          (req.videoType.getD "") (req.thumbnail.getD "")
          [.dbSelect (req.videoId.getD "")]

/-- All-or-nothing sequencing of optional slot reads. -/
def optionSeq : List (Option Chunk) → Option (List Chunk)
  | [] => some []
  | o :: rest =>
    match o, optionSeq rest with
    | some c, some cs => some (c :: cs)
    | _, _ => none

/-- Scheduled model of the `Promise.all` join: `order` is the completion
order of the per-key calls, `f i` the value produced for index `i`; the
completed results are keyed by their original index and the join reads the
slots back in index order. -/
def promiseAllScheduled (f : Nat → Chunk) (n : Nat) (order : List Nat) :
    Option (List Chunk) :=
  optionSeq ((List.range n).map (fun i =>
    List.lookup i (order.map (fun j => (j, f j)))))

/-- Replacing the session provider's answer, all other collaborators kept. -/
def Env.withUser (env : Env) (u : Option User) : Env :=
  ⟨env.dbLookup, u, env.bucketContents, env.signUrl, env.headMetadata⟩

/-! ### Sample collaborators for concrete evaluation -/

/-- Sample public recording. -/
def vidPub : Video := ⟨"v1", "alice", some true⟩

/-- Sample private recording. -/
def vidPriv : Video := ⟨"v1", "alice", some false⟩

/-- Sample recording whose visibility column is null. -/
def vidNull : Video := ⟨"v1", "alice", none⟩

/-- Store listing three keys under every track. -/
def baseStore : String → Except Unit (Option (List String)) :=
  fun _ => .ok (some ["k1", "k2", "k3"])

/-- Signing that always succeeds. -/
def baseSign : String → Except Unit String :=
  fun k => .ok (k ++ "-signed")

/-- Metadata fetch that always finds a duration. -/
def baseHead : String → Except Unit (Option (List (String × String))) :=
  fun _ => .ok (some [("duration", "4.0")])

/-- Metadata fetch without a duration field. -/
def noDurHead : String → Except Unit (Option (List (String × String))) :=
  fun k => if k = "k2" then .ok (some [("codec", "h264")]) else .ok (some [("duration", "4.0")])

/-- Metadata fetch failing on the second key. -/
def failHead : String → Except Unit (Option (List (String × String))) :=
  fun k => if k = "k2" then .error () else .ok (some [("duration", "4.0")])

/-- Catalog holding exactly one recording under id v1. -/
def oneVid (video : Video) : String → List Video :=
  fun i => if i = "v1" then [video] else []

def pubEnv : Env := ⟨oneVid vidPub, none, baseStore, baseSign, baseHead⟩

def privEnv : Env := ⟨oneVid vidPriv, none, baseStore, baseSign, baseHead⟩

def nullEnv : Env := ⟨oneVid vidNull, none, baseStore, baseSign, baseHead⟩

def ownerEnv : Env := ⟨oneVid vidPriv, some ⟨"alice"⟩, baseStore, baseSign, baseHead⟩

def failEnv : Env := ⟨oneVid vidPub, none, baseStore, baseSign, failHead⟩

def noDurEnv : Env := ⟨oneVid vidPub, none, baseStore, baseSign, noDurHead⟩

def emptyEnv : Env := ⟨oneVid vidPub, none, fun _ => .ok none, baseSign, baseHead⟩

def reqScreen : Request := ⟨some "alice", some "v1", some "screen", none⟩

def reqThumb : Request := ⟨some "alice", some "v1", some "screen", some "false"⟩

def reqBadType : Request := ⟨some "alice", some "v1", some "gif", none⟩

/-! ### Unfolding lemmas -/

theorem resolveAll_nil (env : Env) : resolveAll env [] = .ok [] := rfl

theorem resolveAll_cons (env : Env) (k : String) (kt : List String) :
    resolveAll env (k :: kt) =
      match resolveChunk env k, resolveAll env kt with
      | .ok c, .ok cs => .ok (c :: cs)
      | .error e, _ => .error e
      | _, .error e => .error e := rfl

theorem getAfterAuth_sel_none (env : Env) (u v t th : String) (tr : List CallEvent)
    (h : resolveSel u v t = none) :
    getAfterAuth env u v t th tr = (.invalidVideoType, tr) := by
  unfold getAfterAuth
  rw [h]

theorem getAfterAuth_sel_some (env : Env) (u v t th : String) (tr : List CallEvent)
    (pfx : String) (h : resolveSel u v t = some pfx) :
    getAfterAuth env u v t th tr = resolutionStage env pfx th tr := by
  unfold getAfterAuth
  rw [h]

theorem resolveSel_isSome_iff (u v t : String) :
    (resolveSel u v t).isSome = true ↔ (t = "screen" ∨ t = "video" ∨ t = "audio") := by
  unfold resolveSel
  split <;> simp_all

theorem listObjectsV2_ok_some (env : Env) (pfx : String) (mk : Option Nat)
    (keys : List String) (h : env.bucketContents pfx = .ok (some keys)) :
    listObjectsV2 env pfx mk = .ok (some (applyCap mk keys)) := by
  unfold listObjectsV2
  rw [h]
  rfl

theorem listObjectsV2_ok_none (env : Env) (pfx : String) (mk : Option Nat)
    (h : env.bucketContents pfx = .ok none) :
    listObjectsV2 env pfx mk = .ok none := by
  unfold listObjectsV2
  rw [h]
  rfl

theorem resolutionStage_fst_ok (env : Env) (pfx th : String) (tr : List CallEvent)
    (contents : Option (List String)) (chunks : List Chunk)
    (hl : listObjectsV2 env pfx (thumbMax th) = .ok contents)
    (hr : resolveAll env (contents.getD []) = .ok chunks) :
    (resolutionStage env pfx th tr).1 = .manifest (generateM3U8Playlist chunks) := by
  unfold resolutionStage
  rw [hl]
  dsimp only
  rw [hr]

theorem resolutionStage_fst_err (env : Env) (pfx th : String) (tr : List CallEvent)
    (contents : Option (List String))
    (hl : listObjectsV2 env pfx (thumbMax th) = .ok contents)
    (hr : resolveAll env (contents.getD []) = .error ()) :
    (resolutionStage env pfx th tr).1 = .upstreamError := by
  unfold resolutionStage
  rw [hl]
  dsimp only
  rw [hr]

theorem resolutionStage_s3List_mem (env : Env) (pfx th : String) (tr : List CallEvent) :
    CallEvent.s3List pfx (thumbMax th) ∈ (resolutionStage env pfx th tr).2 := by
  unfold resolutionStage
  cases hl : listObjectsV2 env pfx (thumbMax th) with
  | error e => simp
  | ok contents =>
    dsimp only
    cases hr : resolveAll env (contents.getD []) with
    | error e => simp
    | ok chunks => simp

theorem resolutionStage_snd_shape (env : Env) (pfx th : String) (tr : List CallEvent) :
    ∃ extra, (resolutionStage env pfx th tr).2 = tr ++ extra ∧
      ∀ e ∈ extra, (∃ p mk, e = CallEvent.s3List p mk) ∨
        (∃ k, e = CallEvent.s3Sign k) ∨ (∃ k, e = CallEvent.s3Head k) := by
  have hchunk : ∀ keys : List String,
      ∀ e ∈ (keys.map (chunkEvents env)).flatten,
        (∃ p mk, e = CallEvent.s3List p mk) ∨
          (∃ k, e = CallEvent.s3Sign k) ∨ (∃ k, e = CallEvent.s3Head k) := by
    intro keys e he
    rcases List.mem_flatten.mp he with ⟨l, hl, hel⟩
    rcases List.mem_map.mp hl with ⟨k, _, rfl⟩
    unfold chunkEvents at hel
    cases hs : env.signUrl k with
    | error e' =>
      rw [hs] at hel
      simp at hel
      exact Or.inr (Or.inl ⟨k, hel⟩)
    | ok url =>
      rw [hs] at hel
      simp at hel
      rcases hel with h | h
      · exact Or.inr (Or.inl ⟨k, h⟩)
      · exact Or.inr (Or.inr ⟨k, h⟩)
  unfold resolutionStage
  cases hl : listObjectsV2 env pfx (thumbMax th) with
  | error e =>
    refine ⟨[CallEvent.s3List pfx (thumbMax th)], rfl, ?_⟩
    intro e he
    simp at he
    exact Or.inl ⟨pfx, thumbMax th, he⟩
  | ok contents =>
    dsimp only
    cases hr : resolveAll env (contents.getD []) with
    | error e =>
      refine ⟨[CallEvent.s3List pfx (thumbMax th)] ++
        (((contents.getD []).map (chunkEvents env)).flatten),
        by rw [List.append_assoc], ?_⟩
      intro e he
      rcases List.mem_append.mp he with h | h
      · simp at h
        exact Or.inl ⟨pfx, thumbMax th, h⟩
      · exact hchunk _ e h
    | ok chunks =>
      refine ⟨[CallEvent.s3List pfx (thumbMax th)] ++
        (((contents.getD []).map (chunkEvents env)).flatten),
        by rw [List.append_assoc], ?_⟩
      intro e he
      rcases List.mem_append.mp he with h | h
      · simp at h
        exact Or.inl ⟨pfx, thumbMax th, h⟩
      · exact hchunk _ e h

theorem resolutionStage_fst_cases (env : Env) (pfx th : String) (tr : List CallEvent) :
    (resolutionStage env pfx th tr).1 = .upstreamError ∨
      ∃ text, (resolutionStage env pfx th tr).1 = .manifest text := by
  unfold resolutionStage
  cases hl : listObjectsV2 env pfx (thumbMax th) with
  | error e => exact Or.inl rfl
  | ok contents =>
    dsimp only
    cases hr : resolveAll env (contents.getD []) with
    | error e => exact Or.inl rfl
    | ok chunks => exact Or.inr ⟨_, rfl⟩

theorem getAfterAuth_fst_cases (env : Env) (u v t th : String) (tr : List CallEvent) :
    (getAfterAuth env u v t th tr).1 = .invalidVideoType ∨
      (getAfterAuth env u v t th tr).1 = .upstreamError ∨
      ∃ text, (getAfterAuth env u v t th tr).1 = .manifest text := by
  unfold getAfterAuth
  cases hs : resolveSel u v t with
  | none => exact Or.inl rfl
  | some pfx => exact Or.inr (resolutionStage_fst_cases env pfx th tr)

theorem getAfterAuth_fst_ne_notPublic (env : Env) (u v t th : String)
    (tr : List CallEvent) : (getAfterAuth env u v t th tr).1 ≠ .notPublic := by
  rcases getAfterAuth_fst_cases env u v t th tr with h | h | ⟨text, h⟩ <;>
    rw [h] <;> intro hc <;> cases hc

/-! ### GET-level lemmas -/

theorem GET_missing (env : Env) (req : Request)
    (h : req.userId.getD "" = "" ∨ req.videoId.getD "" = "") :
    GET env req = (.missingParams, []) := by
  unfold GET
  rw [if_pos h]

theorem GET_notFound (env : Env) (req : Request) (v : String)
    (hu' : req.userId.getD "" ≠ "") (hv : req.videoId.getD "" = v) (hv' : v ≠ "")
    (hq : env.dbLookup v = []) :
    GET env req = (.videoNotFound, [.dbSelect v]) := by
  unfold GET
  rw [hv, if_neg (by simp [hu', hv']), hq]

theorem GET_private_deny (env : Env) (req : Request) (v : String) (video : Video)
    (rest : List Video)
    (hu' : req.userId.getD "" ≠ "") (hv : req.videoId.getD "" = v) (hv' : v ≠ "")
    (hq : env.dbLookup v = video :: rest)
    (hpriv : video.publicFlag = some false)
    (hdeny : ∀ usr, env.currentUser = some usr → usr.userId ≠ video.ownerId) :
    GET env req = (.notPublic, [.dbSelect v, .sessionLookup]) := by
  unfold GET
  rw [hv, if_neg (by simp [hu', hv']), hq]
  dsimp only
  rw [if_pos hpriv]
  cases hc : env.currentUser with
  | none => rfl
  | some usr =>
    dsimp only
    rw [if_pos (hdeny usr hc)]

theorem GET_grant (env : Env) (req : Request) (u v : String) (video : Video)
    (rest : List Video)
    (hu : req.userId.getD "" = u) (hu' : u ≠ "")
    (hv : req.videoId.getD "" = v) (hv' : v ≠ "")
    (hq : env.dbLookup v = video :: rest)
    (hauth : video.publicFlag ≠ some false ∨
      ∃ usr, env.currentUser = some usr ∧ usr.userId = video.ownerId) :
    ∃ tr, (tr = [CallEvent.dbSelect v] ∨
        tr = [CallEvent.dbSelect v, CallEvent.sessionLookup]) ∧
      GET env req =
        getAfterAuth env u v (req.videoType.getD "") (req.thumbnail.getD "") tr := by
  unfold GET
  rw [hu, hv, if_neg (by simp [hu', hv']), hq]
  dsimp only
  by_cases hp : video.publicFlag = some false
  · rw [if_pos hp]
    rcases hauth with h | ⟨usr, hc, he⟩
    · exact absurd hp h
    · rw [hc]
      dsimp only
      rw [if_neg (by simp [he])]
      exact ⟨_, Or.inr rfl, rfl⟩
  · rw [if_neg hp]
    exact ⟨_, Or.inl rfl, rfl⟩

/-! ### Resolution lemmas -/

theorem resolveChunk_error (env : Env) (k : String)
    (h : env.signUrl k = .error () ∨ env.headMetadata k = .error ()) :
    resolveChunk env k = .error () := by
  unfold resolveChunk
  cases hs : env.signUrl k with
  | error e => cases e; rfl
  | ok url =>
    dsimp only
    rcases h with h | h
    · rw [hs] at h
      cases h
    · rw [h]

theorem resolveAll_error_of_mem (env : Env) (keys : List String) (k : String)
    (hk : k ∈ keys) (he : resolveChunk env k = .error ()) :
    resolveAll env keys = .error () := by
  induction keys with
  | nil => cases hk
  | cons k0 kt ih =>
    rw [resolveAll_cons]
    rcases List.mem_cons.mp hk with h | h
    · subst h
      rw [he]
      cases hr : resolveAll env kt with
      | error e => cases e; rfl
      | ok cs => rfl
    · rw [ih h]
      cases hc : resolveChunk env k0 with
      | error e => cases e; rfl
      | ok c => rfl

theorem resolveAll_ok_length (env : Env) (keys : List String) (chunks : List Chunk)
    (h : resolveAll env keys = .ok chunks) : chunks.length = keys.length := by
  induction keys generalizing chunks with
  | nil =>
    rw [resolveAll_nil] at h
    cases h
    rfl
  | cons k kt ih =>
    rw [resolveAll_cons] at h
    cases hc : resolveChunk env k with
    | error e =>
      cases hr : resolveAll env kt with
      | error e2 => rw [hc, hr] at h; cases h
      | ok cs => rw [hc, hr] at h; cases h
    | ok c =>
      cases hr : resolveAll env kt with
      | error e =>
        rw [hc, hr] at h
        cases h
      | ok cs =>
        rw [hc, hr] at h
        cases h
        simp [ih cs hr]

theorem resolveAll_ok_getD (env : Env) (keys : List String) (chunks : List Chunk)
    (h : resolveAll env keys = .ok chunks) :
    ∀ i, i < keys.length →
      resolveChunk env (keys.getD i "") = .ok (chunks.getD i ⟨"", ""⟩) := by
  induction keys generalizing chunks with
  | nil =>
    intro i hi
    cases hi
  | cons k kt ih =>
    intro i hi
    rw [resolveAll_cons] at h
    cases hc : resolveChunk env k with
    | error e =>
      cases hr : resolveAll env kt with
      | error e2 => rw [hc, hr] at h; cases h
      | ok cs => rw [hc, hr] at h; cases h
    | ok c =>
      cases hr : resolveAll env kt with
      | error e =>
        rw [hc, hr] at h
        cases h
      | ok cs =>
        rw [hc, hr] at h
        cases h
        cases i with
        | zero => simpa using hc
        | succ n =>
          simp only [List.getD_cons_succ]
          exact ih cs hr n (by simpa using hi)

/-! ### Scheduled-join lemmas -/

theorem lookup_map_pair (f : Nat → Chunk) (l : List Nat) (i : Nat) (hi : i ∈ l) :
    List.lookup i (l.map (fun j => (j, f j))) = some (f i) := by
  induction l with
  | nil => cases hi
  | cons a t ih =>
    by_cases hia : i = a
    · subst hia
      simp [List.lookup]
    · have hmem : i ∈ t := by
        rcases List.mem_cons.mp hi with h | h
        · exact absurd h hia
        · exact h
      have hba : (i == a) = false := beq_eq_false_iff_ne.mpr hia
      simp [List.lookup, hba, ih hmem]

theorem optionSeq_cons (o : Option Chunk) (rest : List (Option Chunk)) :
    optionSeq (o :: rest) =
      match o, optionSeq rest with
      | some c, some cs => some (c :: cs)
      | _, _ => none := rfl

theorem optionSeq_map_all (g : Nat → Option Chunk) (f : Nat → Chunk) (l : List Nat)
    (h : ∀ i ∈ l, g i = some (f i)) :
    optionSeq (l.map g) = some (l.map f) := by
  induction l with
  | nil => rfl
  | cons a t ih =>
    simp only [List.map_cons]
    rw [optionSeq_cons, h a (List.mem_cons_self a t),
      ih (fun i hi => h i (List.mem_cons_of_mem a hi))]

theorem map_getD_range (l : List Chunk) (d : Chunk) :
    (List.range l.length).map (fun i => l.getD i d) = l := by
  induction l with
  | nil => rfl
  | cons c t ih =>
    rw [List.length_cons, List.range_succ_eq_map]
    simp only [List.map_cons, List.getD_cons_zero, List.map_map]
    have hfun : ((fun i => (c :: t).getD i d) ∘ Nat.succ) = fun i => t.getD i d := by
      funext i
      simp [List.getD_cons_succ]
    rw [hfun, ih]

/-! ### Manifest lemmas -/

theorem manifestEntries_length (chunks : List Chunk) :
    (manifestEntries chunks).length = chunks.length := by
  simp [manifestEntries]

theorem manifestEntries_cons (c : Chunk) (t : List Chunk) :
    manifestEntries (c :: t) =
      ⟨c.url, if c.duration = "" then "0" else c.duration⟩ :: manifestEntries t := rfl

theorem manifestEntries_getD (chunks : List Chunk) (i : Nat) (hi : i < chunks.length) :
    (manifestEntries chunks).getD i ⟨"", ""⟩ =
      ⟨(chunks.getD i ⟨"", ""⟩).url,
        if (chunks.getD i ⟨"", ""⟩).duration = "" then "0"
        else (chunks.getD i ⟨"", ""⟩).duration⟩ := by
  induction chunks generalizing i with
  | nil => cases hi
  | cons c t ih =>
    cases i with
    | zero => simp [manifestEntries_cons]
    | succ n =>
      rw [manifestEntries_cons]
      simp only [List.getD_cons_succ]
      exact ih n (by simpa using hi)

/-! ### More GET-level lemmas -/

theorem GET_public_grant (env : Env) (req : Request) (u v : String) (video : Video)
    (rest : List Video)
    (hu : req.userId.getD "" = u) (hu' : u ≠ "")
    (hv : req.videoId.getD "" = v) (hv' : v ≠ "")
    (hq : env.dbLookup v = video :: rest)
    (hflag : video.publicFlag ≠ some false) :
    GET env req = getAfterAuth env u v (req.videoType.getD "") (req.thumbnail.getD "")
      [CallEvent.dbSelect v] := by
  unfold GET
  rw [hu, hv, if_neg (by simp [hu', hv']), hq]
  dsimp only
  rw [if_neg hflag]

theorem getAfterAuth_withUser (env : Env) (c : Option User) (u v t th : String)
    (tr : List CallEvent) :
    getAfterAuth (env.withUser c) u v t th tr = getAfterAuth env u v t th tr := rfl

theorem sessionLookup_not_mem_getAfterAuth (env : Env) (u v t th : String)
    (tr : List CallEvent) (h : CallEvent.sessionLookup ∉ tr) :
    CallEvent.sessionLookup ∉ (getAfterAuth env u v t th tr).2 := by
  cases hs : resolveSel u v t with
  | none =>
    rw [getAfterAuth_sel_none env u v t th tr hs]
    exact h
  | some pfx =>
    rw [getAfterAuth_sel_some env u v t th tr pfx hs]
    rcases resolutionStage_snd_shape env pfx th tr with ⟨extra, heq, hall⟩
    rw [heq]
    intro hmem
    rcases List.mem_append.mp hmem with hm | hm
    · exact h hm
    · rcases hall _ hm with ⟨p, mk, hE⟩ | ⟨k, hE⟩ | ⟨k, hE⟩ <;> cases hE

theorem thumbMax_pos (th : String) (h : th ≠ "") : thumbMax th = some 1 := by
  unfold thumbMax
  rw [if_pos h]

theorem thumbMax_empty : thumbMax "" = none := rfl

theorem applyCap_one (keys : List String) : applyCap (some 1) keys = keys.take 1 := rfl

theorem applyCap_none (keys : List String) : applyCap none keys = keys := rfl

theorem applyCap_nil (mk : Option Nat) : applyCap mk [] = [] := by
  cases mk <;> simp [applyCap]

/-! ### Claims -/

/-- C1: when the recording's stored visibility flag is a definite boolean,
the handler allows access (never answers the `notPublic` denial) iff the
flag is public or the requester identity is present with id equal to the
recording's `ownerId`; in every other case the request is denied with the
Forbidden-class 401 response and the trace holds only the catalog and
session lookups, so no segment resolution is performed. -/
theorem C1_authorize_iff (env : Env) (req : Request) (u v : String)
    (video : Video) (rest : List Video) (b : Bool)
    (hu : req.userId.getD "" = u) (hu' : u ≠ "")
    (hv : req.videoId.getD "" = v) (hv' : v ≠ "")
    (hq : env.dbLookup v = video :: rest)
    (hvis : video.publicFlag = some b) :
    ((GET env req).1 ≠ .notPublic ↔
      b = true ∨ ∃ usr, env.currentUser = some usr ∧ usr.userId = video.ownerId) ∧
    (¬(b = true ∨ ∃ usr, env.currentUser = some usr ∧ usr.userId = video.ownerId) →
      GET env req = (.notPublic, [.dbSelect v, .sessionLookup]) ∧
      (GET env req).1.status = 401) := by
  by_cases hallow : b = true ∨ ∃ usr, env.currentUser = some usr ∧ usr.userId = video.ownerId
  · refine ⟨⟨fun _ => hallow, fun _ => ?_⟩, fun hcon => absurd hallow hcon⟩
    have hauth : video.publicFlag ≠ some false ∨
        ∃ usr, env.currentUser = some usr ∧ usr.userId = video.ownerId := by
      rcases hallow with hb | hx
      · subst hb
        rw [hvis]
        exact Or.inl (by simp)
      · exact Or.inr hx
    rcases GET_grant env req u v video rest hu hu' hv hv' hq hauth with ⟨tr, _, hg⟩
    rw [hg]
    exact getAfterAuth_fst_ne_notPublic env u v _ _ tr
  · have hb : b = false := by
      cases b
      · rfl
      · exact absurd (Or.inl rfl) hallow
    have hdeny : ∀ usr, env.currentUser = some usr → usr.userId ≠ video.ownerId := by
      intro usr hc heq
      exact hallow (Or.inr ⟨usr, hc, heq⟩)
    have hpriv : video.publicFlag = some false := by rw [hvis, hb]
    have hd := GET_private_deny env req v video rest (by rw [hu]; exact hu') hv hv' hq
      hpriv hdeny
    refine ⟨?_, fun _ => ⟨hd, by rw [hd]; rfl⟩⟩
    rw [hd]
    constructor
    · intro hcontra
      exact absurd rfl hcontra
    · intro hcontra
      exact absurd hcontra hallow

/-- Witness for C1: the private sample recording with an anonymous caller is
denied with the Forbidden-class response and no storage calls. -/
theorem C1_authorize_iff_witness :
    GET privEnv reqScreen = (.notPublic, [.dbSelect "v1", .sessionLookup]) :=
  ((C1_authorize_iff privEnv reqScreen "alice" "v1" vidPriv [] false rfl (by decide)
    rfl (by decide) rfl rfl).2 (by simp [privEnv])).1

/-- C6: for every request in which the owner id or the recording id
parameter is missing or empty, the handler returns the request-validation
error with an empty collaborator-call trace: no catalog lookup, no session
lookup, no storage call is made. -/
theorem C6_validation_before_collaborators (env : Env) (req : Request)
    (h : req.userId.getD "" = "" ∨ req.videoId.getD "" = "") :
    GET env req = (.missingParams, []) :=
  GET_missing env req h

/-- Witness for C6: an empty userId is rejected before any collaborator. -/
theorem C6_validation_before_collaborators_witness :
    GET pubEnv ⟨some "", some "v1", some "screen", none⟩ = (.missingParams, []) :=
  C6_validation_before_collaborators pubEnv ⟨some "", some "v1", some "screen", none⟩
    (Or.inl rfl)

/-- C8: a recording whose stored visibility flag is not strictly the boolean
false (null as well as true) is treated as public: the handler never answers
the Forbidden error, never consults the session provider, and its answer is
identical for every caller identity, the anonymous one included. -/
theorem C8_nonfalse_visibility_public (env : Env) (req : Request) (v : String)
    (video : Video) (rest : List Video)
    (hv : req.videoId.getD "" = v)
    (hq : env.dbLookup v = video :: rest)
    (hflag : video.publicFlag ≠ some false) :
    (GET env req).1 ≠ .notPublic ∧
    CallEvent.sessionLookup ∉ (GET env req).2 ∧
    (∀ c c', GET (env.withUser c) req = GET (env.withUser c') req) := by
  by_cases hmp : req.userId.getD "" = "" ∨ req.videoId.getD "" = ""
  · have hm := GET_missing env req hmp
    refine ⟨?_, ?_, ?_⟩
    · rw [hm]
      intro hc
      cases hc
    · rw [hm]
      simp
    · intro c c'
      rw [GET_missing _ req hmp, GET_missing _ req hmp]
  · push_neg at hmp
    obtain ⟨hu', hv'⟩ := hmp
    rw [hv] at hv'
    have hg := GET_public_grant env req (req.userId.getD "") v video rest rfl hu' hv hv'
      hq hflag
    refine ⟨?_, ?_, ?_⟩
    · rw [hg]
      exact getAfterAuth_fst_ne_notPublic env _ v _ _ _
    · rw [hg]
      exact sessionLookup_not_mem_getAfterAuth env _ v _ _ _ (by simp)
    · intro c c'
      have hgc := GET_public_grant (env.withUser c) req (req.userId.getD "") v video rest
        rfl hu' hv hv' hq hflag
      have hgc' := GET_public_grant (env.withUser c') req (req.userId.getD "") v video rest
        rfl hu' hv hv' hq hflag
      rw [hgc, hgc', getAfterAuth_withUser, getAfterAuth_withUser]

/-- Witness for C8: the null-visibility sample recording is served to an
anonymous caller without the session provider being consulted. -/
theorem C8_nonfalse_visibility_public_witness :
    (GET nullEnv reqScreen).1 ≠ HResponse.notPublic ∧
    CallEvent.sessionLookup ∉ (GET nullEnv reqScreen).2 ∧
    GET (nullEnv.withUser none) reqScreen =
      GET (nullEnv.withUser (some ⟨"bob"⟩)) reqScreen :=
  ⟨(C8_nonfalse_visibility_public nullEnv reqScreen "v1" vidNull [] rfl rfl
      (by decide)).1,
   (C8_nonfalse_visibility_public nullEnv reqScreen "v1" vidNull [] rfl rfl
      (by decide)).2.1,
   (C8_nonfalse_visibility_public nullEnv reqScreen "v1" vidNull [] rfl rfl
      (by decide)).2.2 none (some ⟨"bob"⟩)⟩

/-- C2: the resolved entries correspond to the listed keys positionally —
same length, entry i resolved from key i — and the `Promise.all` join
returns exactly this positional sequence under every completion order of
the per-key calls, so no reordering, insertion or dropping occurs. -/
theorem C2_order_matches_listing (env : Env) (keys : List String) (chunks : List Chunk)
    (h : resolveAll env keys = .ok chunks) :
    chunks.length = keys.length ∧
    (∀ i, i < keys.length →
      resolveChunk env (keys.getD i "") = .ok (chunks.getD i ⟨"", ""⟩)) ∧
    (∀ order, order.Perm (List.range keys.length) →
      promiseAllScheduled (fun i => chunks.getD i ⟨"", ""⟩) keys.length order =
        some chunks) := by
  refine ⟨resolveAll_ok_length env keys chunks h, resolveAll_ok_getD env keys chunks h, ?_⟩
  intro order hperm
  unfold promiseAllScheduled
  have hall : ∀ i ∈ List.range keys.length,
      List.lookup i (order.map (fun j => (j, chunks.getD j ⟨"", ""⟩))) =
        some (chunks.getD i ⟨"", ""⟩) := by
    intro i hi
    exact lookup_map_pair (fun j => chunks.getD j ⟨"", ""⟩) order i
      (hperm.mem_iff.mpr hi)
  rw [optionSeq_map_all _ (fun i => chunks.getD i ⟨"", ""⟩) _ hall]
  rw [← resolveAll_ok_length env keys chunks h, map_getD_range]

/-- Witness for C2: three sample keys, joined under the completion order
2,0,1, still produce the chunks in listing order. -/
theorem C2_order_matches_listing_witness :
    promiseAllScheduled
      (fun i => ([⟨"k1-signed", "4.0"⟩, ⟨"k2-signed", "4.0"⟩, ⟨"k3-signed", "4.0"⟩] :
        List Chunk).getD i ⟨"", ""⟩) 3 [2, 0, 1] =
      some [⟨"k1-signed", "4.0"⟩, ⟨"k2-signed", "4.0"⟩, ⟨"k3-signed", "4.0"⟩] :=
  (C2_order_matches_listing pubEnv ["k1", "k2", "k3"]
      [⟨"k1-signed", "4.0"⟩, ⟨"k2-signed", "4.0"⟩, ⟨"k3-signed", "4.0"⟩]
      rfl).2.2 [2, 0, 1] (by decide)

/-- C3: once the request reaches segment resolution, a failure of the
signing call or of the metadata call for any single listed key fails the
whole resolution: the response is the generic 500 upstream error and no
manifest (in particular no partial manifest) is returned. -/
theorem C3_all_or_nothing (env : Env) (req : Request) (u v : String)
    (video : Video) (rest : List Video) (pfx : String) (keys : List String) (k : String)
    (hu : req.userId.getD "" = u) (hu' : u ≠ "")
    (hv : req.videoId.getD "" = v) (hv' : v ≠ "")
    (hq : env.dbLookup v = video :: rest)
    (hauth : video.publicFlag ≠ some false ∨
      ∃ usr, env.currentUser = some usr ∧ usr.userId = video.ownerId)
    (hsel : resolveSel u v (req.videoType.getD "") = some pfx)
    (hl : listObjectsV2 env pfx (thumbMax (req.thumbnail.getD "")) = .ok (some keys))
    (hk : k ∈ keys)
    (hfail : env.signUrl k = .error () ∨ env.headMetadata k = .error ()) :
    (GET env req).1 = .upstreamError ∧
    (GET env req).1.status = 500 ∧
    ∀ text, (GET env req).1 ≠ .manifest text := by
  rcases GET_grant env req u v video rest hu hu' hv hv' hq hauth with ⟨tr, _, hg⟩
  have hr : resolveAll env ((some keys : Option (List String)).getD []) = .error () :=
    resolveAll_error_of_mem env keys k hk (resolveChunk_error env k hfail)
  have hfst : (GET env req).1 = .upstreamError := by
    rw [hg, getAfterAuth_sel_some env u v _ _ tr pfx hsel]
    exact resolutionStage_fst_err env pfx _ tr (some keys) hl hr
  refine ⟨hfst, by rw [hfst]; rfl, ?_⟩
  intro text
  rw [hfst]
  intro hc
  cases hc

/-- Witness for C3: the metadata call fails on the second of three keys and
the request answers the 500 error, not a manifest. -/
theorem C3_all_or_nothing_witness :
    (GET failEnv reqScreen).1 = HResponse.upstreamError ∧
    (GET failEnv reqScreen).1.status = 500 ∧
    (GET failEnv reqScreen).1 ≠ HResponse.manifest "" := by
  have h := C3_all_or_nothing failEnv reqScreen "alice" "v1" vidPub []
    ("alice" ++ "/" ++ "v1" ++ "/screen/") ["k1", "k2", "k3"] "k2" rfl (by decide) rfl
    (by decide) rfl (Or.inl (by decide)) rfl rfl (by decide) (Or.inr rfl)
  exact ⟨h.1, h.2.1, h.2.2 ""⟩

/-- C4: a key whose per-object metadata lacks the duration field still
resolves successfully — its chunk carries the empty duration instead of an
error — and in the built manifest such an entry's duration falls back to
"0" while every entry keeps its url and every non-empty duration is kept
verbatim. -/
theorem C4_missing_duration_defaults (env : Env) (key url : String)
    (md : Option (List (String × String)))
    (hsign : env.signUrl key = .ok url)
    (hmd : env.headMetadata key = .ok md)
    (hnodur : md.bind (fun m => m.lookup "duration") = none) :
    resolveChunk env key = .ok ⟨url, ""⟩ ∧
    (∀ chunks : List Chunk, (manifestEntries chunks).length = chunks.length ∧
      ∀ i, i < chunks.length →
        ((manifestEntries chunks).getD i ⟨"", ""⟩).url = (chunks.getD i ⟨"", ""⟩).url ∧
        ((chunks.getD i ⟨"", ""⟩).duration = "" →
          ((manifestEntries chunks).getD i ⟨"", ""⟩).duration = "0") ∧
        ((chunks.getD i ⟨"", ""⟩).duration ≠ "" →
          ((manifestEntries chunks).getD i ⟨"", ""⟩).duration =
            (chunks.getD i ⟨"", ""⟩).duration)) := by
  constructor
  · unfold resolveChunk
    rw [hsign]
    dsimp only
    rw [hmd]
    dsimp only
    rw [hnodur]
    rfl
  · intro chunks
    refine ⟨manifestEntries_length chunks, ?_⟩
    intro i hi
    rw [manifestEntries_getD chunks i hi]
    refine ⟨rfl, ?_, ?_⟩
    · intro h
      rw [if_pos h]
    · intro h
      rw [if_neg h]

/-- Witness for C4: the sample key without a duration field resolves with
the empty duration, and its manifest entry defaults to "0" while a sibling
entry keeps its real duration. -/
theorem C4_missing_duration_defaults_witness :
    resolveChunk noDurEnv "k2" = .ok ⟨"k2-signed", ""⟩ ∧
    ((manifestEntries [⟨"k2-signed", ""⟩, ⟨"k1-signed", "4.0"⟩]).getD 0
      ⟨"", ""⟩).duration = "0" ∧
    ((manifestEntries [⟨"k2-signed", ""⟩, ⟨"k1-signed", "4.0"⟩]).getD 1
      ⟨"", ""⟩).duration = "4.0" := by
  have h := C4_missing_duration_defaults noDurEnv "k2" "k2-signed"
    (some [("codec", "h264")]) rfl rfl (by decide)
  refine ⟨h.1, ?_, ?_⟩
  · exact ((h.2 [⟨"k2-signed", ""⟩, ⟨"k1-signed", "4.0"⟩]).2 0 (by decide)).2.1 rfl
  · exact ((h.2 [⟨"k2-signed", ""⟩, ⟨"k1-signed", "4.0"⟩]).2 1 (by decide)).2.2 (by decide)

/-- C5: with the thumbnail flag set the listing is issued with a cap of
exactly one key, so even a store holding three or more segments is bounded
to at most one resolved key and the built manifest has exactly one entry;
with the flag unset the listing is uncapped and every stored key is
resolved. -/
theorem C5_thumbnail_caps_listing (env : Env) (req : Request) (u v : String)
    (video : Video) (rest : List Video) (pfx : String) (keys : List String)
    (hu : req.userId.getD "" = u) (hu' : u ≠ "")
    (hv : req.videoId.getD "" = v) (hv' : v ≠ "")
    (hq : env.dbLookup v = video :: rest)
    (hauth : video.publicFlag ≠ some false ∨
      ∃ usr, env.currentUser = some usr ∧ usr.userId = video.ownerId)
    (hsel : resolveSel u v (req.videoType.getD "") = some pfx)
    (hstore : env.bucketContents pfx = .ok (some keys)) :
    (req.thumbnail.getD "" ≠ "" →
      CallEvent.s3List pfx (some 1) ∈ (GET env req).2 ∧
      ∀ chunks, resolveAll env (keys.take 1) = .ok chunks →
        (GET env req).1 = .manifest (generateM3U8Playlist chunks) ∧
        chunks.length = min 1 keys.length ∧
        (1 ≤ keys.length → (manifestEntries chunks).length = 1)) ∧
    (req.thumbnail.getD "" = "" →
      CallEvent.s3List pfx none ∈ (GET env req).2 ∧
      ∀ chunks, resolveAll env keys = .ok chunks →
        (GET env req).1 = .manifest (generateM3U8Playlist chunks) ∧
        chunks.length = keys.length) := by
  rcases GET_grant env req u v video rest hu hu' hv hv' hq hauth with ⟨tr, _, hg⟩
  rw [hg, getAfterAuth_sel_some env u v _ _ tr pfx hsel]
  constructor
  · intro hth
    have hcap : thumbMax (req.thumbnail.getD "") = some 1 := thumbMax_pos _ hth
    constructor
    · have hm := resolutionStage_s3List_mem env pfx (req.thumbnail.getD "") tr
      rw [hcap] at hm
      exact hm
    · intro chunks hr
      have hl : listObjectsV2 env pfx (thumbMax (req.thumbnail.getD "")) =
          .ok (some (keys.take 1)) := by
        rw [listObjectsV2_ok_some env pfx _ keys hstore, hcap, applyCap_one]
      refine ⟨resolutionStage_fst_ok env pfx _ tr (some (keys.take 1)) chunks hl hr, ?_, ?_⟩
      · rw [resolveAll_ok_length env (keys.take 1) chunks hr, List.length_take]
      · intro hkeys
        rw [manifestEntries_length, resolveAll_ok_length env (keys.take 1) chunks hr,
          List.length_take]
        exact Nat.min_eq_left hkeys
  · intro hth
    have hcap : thumbMax (req.thumbnail.getD "") = none := by
      unfold thumbMax
      rw [hth]
      rfl
    constructor
    · have hm := resolutionStage_s3List_mem env pfx (req.thumbnail.getD "") tr
      rw [hcap] at hm
      exact hm
    · intro chunks hr
      have hl : listObjectsV2 env pfx (thumbMax (req.thumbnail.getD "")) =
          .ok (some keys) := by
        rw [listObjectsV2_ok_some env pfx _ keys hstore, hcap, applyCap_none]
      exact ⟨resolutionStage_fst_ok env pfx _ tr (some keys) chunks hl hr,
        resolveAll_ok_length env keys chunks hr⟩

/-- Witness for C5: thumbnail parameter "false" on a store with three keys
lists with MaxKeys 1 and yields a one-entry manifest. -/
theorem C5_thumbnail_caps_listing_witness :
    CallEvent.s3List ("alice" ++ "/" ++ "v1" ++ "/screen/") (some 1) ∈
      (GET pubEnv reqThumb).2 ∧
    (GET pubEnv reqThumb).1 =
      HResponse.manifest (generateM3U8Playlist [⟨"k1-signed", "4.0"⟩]) ∧
    (manifestEntries [⟨"k1-signed", "4.0"⟩]).length = 1 := by
  have h := (C5_thumbnail_caps_listing pubEnv reqThumb "alice" "v1" vidPub []
    ("alice" ++ "/" ++ "v1" ++ "/screen/") ["k1", "k2", "k3"] rfl (by decide) rfl
    (by decide) rfl (Or.inl (by decide)) rfl rfl).1 (by decide)
  have h2 := h.2 [⟨"k1-signed", "4.0"⟩] rfl
  exact ⟨h.1, h2.1, h2.2.2 (by decide)⟩

/-- C7: an invalid track selector is reported only after the recording
lookup and the authorization check: an unknown recording id answers the
NotFound error and a private recording with a non-owner caller answers the
Forbidden error whatever the selector is; once those checks pass an
unrecognized selector yields the invalid-type error with no storage call,
a recognized one reaches the listing call, and exactly the three defined
selectors are recognized. -/
theorem C7_invalid_selector_after_auth (env : Env) (req : Request) (u v : String)
    (hu : req.userId.getD "" = u) (hu' : u ≠ "")
    (hv : req.videoId.getD "" = v) (hv' : v ≠ "") :
    (env.dbLookup v = [] → GET env req = (.videoNotFound, [.dbSelect v])) ∧
    (∀ video rest, env.dbLookup v = video :: rest →
      video.publicFlag = some false →
      (∀ usr, env.currentUser = some usr → usr.userId ≠ video.ownerId) →
      GET env req = (.notPublic, [.dbSelect v, .sessionLookup])) ∧
    (∀ video rest, env.dbLookup v = video :: rest →
      (video.publicFlag ≠ some false ∨
        ∃ usr, env.currentUser = some usr ∧ usr.userId = video.ownerId) →
      resolveSel u v (req.videoType.getD "") = none →
      (GET env req).1 = .invalidVideoType ∧
      ∀ p mk, CallEvent.s3List p mk ∉ (GET env req).2) ∧
    (∀ video rest, env.dbLookup v = video :: rest →
      (video.publicFlag ≠ some false ∨
        ∃ usr, env.currentUser = some usr ∧ usr.userId = video.ownerId) →
      ∀ pfx, resolveSel u v (req.videoType.getD "") = some pfx →
      CallEvent.s3List pfx (thumbMax (req.thumbnail.getD "")) ∈ (GET env req).2) ∧
    (∀ t, (resolveSel u v t).isSome = true ↔
      (t = "screen" ∨ t = "video" ∨ t = "audio")) := by
  refine ⟨?_, ?_, ?_, ?_, resolveSel_isSome_iff u v⟩
  · intro hq
    exact GET_notFound env req v (by rw [hu]; exact hu') hv hv' hq
  · intro video rest hq hpriv hdeny
    exact GET_private_deny env req v video rest (by rw [hu]; exact hu') hv hv' hq
      hpriv hdeny
  · intro video rest hq hauth hsel
    rcases GET_grant env req u v video rest hu hu' hv hv' hq hauth with ⟨tr, htr, hg⟩
    rw [hg, getAfterAuth_sel_none env u v _ _ tr hsel]
    refine ⟨rfl, ?_⟩
    intro p mk hmem
    rcases htr with h | h <;> subst h <;> simp at hmem
  · intro video rest hq hauth pfx hsel
    rcases GET_grant env req u v video rest hu hu' hv hv' hq hauth with ⟨tr, _, hg⟩
    rw [hg, getAfterAuth_sel_some env u v _ _ tr pfx hsel]
    exact resolutionStage_s3List_mem env pfx _ tr

/-- Witness for C7: an unknown id answers NotFound despite an invalid
selector, a private recording denies despite an invalid selector, an
authorized request with selector "gif" gets the invalid-type error with no
listing call, a valid selector reaches the listing, and "gif" is not a
recognized selector. -/
theorem C7_invalid_selector_after_auth_witness :
    GET pubEnv ⟨some "alice", some "v2", some "gif", none⟩ =
      (.videoNotFound, [.dbSelect "v2"]) ∧
    GET privEnv reqBadType = (.notPublic, [.dbSelect "v1", .sessionLookup]) ∧
    (GET pubEnv reqBadType).1 = .invalidVideoType ∧
    CallEvent.s3List ("alice" ++ "/" ++ "v1" ++ "/screen/") none ∉
      (GET pubEnv reqBadType).2 ∧
    CallEvent.s3List ("alice" ++ "/" ++ "v1" ++ "/screen/")
      (thumbMax (reqScreen.thumbnail.getD "")) ∈ (GET pubEnv reqScreen).2 ∧
    ((resolveSel "alice" "v1" "gif").isSome = true ↔
      ("gif" = "screen" ∨ "gif" = "video" ∨ "gif" = "audio")) := by
  refine ⟨?_, ?_, ?_, ?_, ?_, ?_⟩
  · exact (C7_invalid_selector_after_auth pubEnv ⟨some "alice", some "v2", some "gif", none⟩
      "alice" "v2" rfl (by decide) rfl (by decide)).1 rfl
  · exact (C7_invalid_selector_after_auth privEnv reqBadType "alice" "v1" rfl (by decide)
      rfl (by decide)).2.1 vidPriv [] rfl rfl (by intro usr hc; cases hc)
  · exact ((C7_invalid_selector_after_auth pubEnv reqBadType "alice" "v1" rfl (by decide)
      rfl (by decide)).2.2.1 vidPub [] rfl (Or.inl (by decide)) rfl).1
  · exact ((C7_invalid_selector_after_auth pubEnv reqBadType "alice" "v1" rfl (by decide)
      rfl (by decide)).2.2.1 vidPub [] rfl (Or.inl (by decide)) rfl).2
      ("alice" ++ "/" ++ "v1" ++ "/screen/") none
  · exact (C7_invalid_selector_after_auth pubEnv reqScreen "alice" "v1" rfl (by decide)
      rfl (by decide)).2.2.2.1 vidPub [] rfl (Or.inl (by decide))
      ("alice" ++ "/" ++ "v1" ++ "/screen/") rfl
  · exact (C7_invalid_selector_after_auth pubEnv reqScreen "alice" "v1" rfl (by decide)
      rfl (by decide)).2.2.2.2 "gif"

/-- C9: the thumbnail-mode flag follows JS truthiness: any non-empty value
of the thumbnail parameter — "false" and "0" included — makes the listing
call carry a MaxKeys cap of one and truncates the listed keys to the first
one, while an absent or empty parameter yields an uncapped listing of all
keys. -/
theorem C9_thumbnail_truthiness (env : Env) (req : Request) (u v : String)
    (video : Video) (rest : List Video) (pfx : String)
    (hu : req.userId.getD "" = u) (hu' : u ≠ "")
    (hv : req.videoId.getD "" = v) (hv' : v ≠ "")
    (hq : env.dbLookup v = video :: rest)
    (hauth : video.publicFlag ≠ some false ∨
      ∃ usr, env.currentUser = some usr ∧ usr.userId = video.ownerId)
    (hsel : resolveSel u v (req.videoType.getD "") = some pfx) :
    (req.thumbnail.getD "" ≠ "" →
      CallEvent.s3List pfx (some 1) ∈ (GET env req).2 ∧
      ∀ keys, env.bucketContents pfx = .ok (some keys) →
        listObjectsV2 env pfx (thumbMax (req.thumbnail.getD "")) =
          .ok (some (keys.take 1))) ∧
    (req.thumbnail.getD "" = "" →
      CallEvent.s3List pfx none ∈ (GET env req).2 ∧
      ∀ keys, env.bucketContents pfx = .ok (some keys) →
        listObjectsV2 env pfx (thumbMax (req.thumbnail.getD "")) = .ok (some keys)) := by
  rcases GET_grant env req u v video rest hu hu' hv hv' hq hauth with ⟨tr, _, hg⟩
  rw [hg, getAfterAuth_sel_some env u v _ _ tr pfx hsel]
  constructor
  · intro hth
    have hcap : thumbMax (req.thumbnail.getD "") = some 1 := thumbMax_pos _ hth
    constructor
    · have hm := resolutionStage_s3List_mem env pfx (req.thumbnail.getD "") tr
      rw [hcap] at hm
      exact hm
    · intro keys hstore
      rw [listObjectsV2_ok_some env pfx _ keys hstore, hcap, applyCap_one]
  · intro hth
    have hcap : thumbMax (req.thumbnail.getD "") = none := by
      unfold thumbMax
      rw [hth]
      rfl
    constructor
    · have hm := resolutionStage_s3List_mem env pfx (req.thumbnail.getD "") tr
      rw [hcap] at hm
      exact hm
    · intro keys hstore
      rw [listObjectsV2_ok_some env pfx _ keys hstore, hcap, applyCap_none]

/-- Witness for C9: the string "false" engages the cap of one key; the
absent parameter lists uncapped. -/
theorem C9_thumbnail_truthiness_witness :
    (CallEvent.s3List ("alice" ++ "/" ++ "v1" ++ "/screen/") (some 1) ∈
      (GET pubEnv reqThumb).2 ∧
     listObjectsV2 pubEnv ("alice" ++ "/" ++ "v1" ++ "/screen/")
       (thumbMax (reqThumb.thumbnail.getD "")) =
         .ok (some (["k1", "k2", "k3"].take 1))) ∧
    (CallEvent.s3List ("alice" ++ "/" ++ "v1" ++ "/screen/") none ∈
      (GET pubEnv reqScreen).2 ∧
     listObjectsV2 pubEnv ("alice" ++ "/" ++ "v1" ++ "/screen/")
       (thumbMax (reqScreen.thumbnail.getD "")) = .ok (some ["k1", "k2", "k3"])) := by
  constructor
  · have h := (C9_thumbnail_truthiness pubEnv reqThumb "alice" "v1" vidPub []
      ("alice" ++ "/" ++ "v1" ++ "/screen/") rfl (by decide) rfl (by decide) rfl
      (Or.inl (by decide)) rfl).1 (by decide)
    exact ⟨h.1, h.2 ["k1", "k2", "k3"] rfl⟩
  · have h := (C9_thumbnail_truthiness pubEnv reqScreen "alice" "v1" vidPub []
      ("alice" ++ "/" ++ "v1" ++ "/screen/") rfl (by decide) rfl (by decide) rfl
      (Or.inl (by decide)) rfl).2 rfl
    exact ⟨h.1, h.2 ["k1", "k2", "k3"] rfl⟩

/-- C10: an authorized request with a valid selector whose listing returns
no keys — an absent Contents field or an empty list — still succeeds: the
manifest is built from the empty segment sequence and returned with the
success status and the manifest content type. -/
theorem C10_empty_listing_succeeds (env : Env) (req : Request) (u v : String)
    (video : Video) (rest : List Video) (pfx : String)
    (hu : req.userId.getD "" = u) (hu' : u ≠ "")
    (hv : req.videoId.getD "" = v) (hv' : v ≠ "")
    (hq : env.dbLookup v = video :: rest)
    (hauth : video.publicFlag ≠ some false ∨
      ∃ usr, env.currentUser = some usr ∧ usr.userId = video.ownerId)
    (hsel : resolveSel u v (req.videoType.getD "") = some pfx)
    (hempty : env.bucketContents pfx = .ok none ∨
      env.bucketContents pfx = .ok (some [])) :
    (GET env req).1 = .manifest (generateM3U8Playlist []) ∧
    (GET env req).1.status = 200 ∧
    (GET env req).1.contentType = some "application/x-mpegURL" := by
  rcases GET_grant env req u v video rest hu hu' hv hv' hq hauth with ⟨tr, _, hg⟩
  have hfst : (GET env req).1 = .manifest (generateM3U8Playlist []) := by
    rw [hg, getAfterAuth_sel_some env u v _ _ tr pfx hsel]
    rcases hempty with hE | hE
    · exact resolutionStage_fst_ok env pfx _ tr none []
        (listObjectsV2_ok_none env pfx _ hE) rfl
    · have hl := listObjectsV2_ok_some env pfx (thumbMax (req.thumbnail.getD "")) [] hE
      rw [applyCap_nil] at hl
      exact resolutionStage_fst_ok env pfx _ tr (some []) [] hl rfl
  exact ⟨hfst, by rw [hfst]; rfl, by rw [hfst]; rfl⟩

/-- Witness for C10: a store whose listing has no Contents still yields the
empty manifest with status 200 and the m3u8 content type. -/
theorem C10_empty_listing_succeeds_witness :
    (GET emptyEnv reqScreen).1 = HResponse.manifest (generateM3U8Playlist []) ∧
    (GET emptyEnv reqScreen).1.status = 200 ∧
    (GET emptyEnv reqScreen).1.contentType = some "application/x-mpegURL" :=
  C10_empty_listing_succeeds emptyEnv reqScreen "alice" "v1" vidPub []
    ("alice" ++ "/" ++ "v1" ++ "/screen/") rfl (by decide) rfl (by decide) rfl
    (Or.inl (by decide)) rfl (Or.inl rfl)

end Playlist
